import Mathlib

/-!
Verification of the konf configuration library (file provider and config core)
against its specification.

The file provider (`provider/file/file.go`) is embedded directly from the
source. External effects (the OS file system `os.ReadFile`, the standard
JSON decoder `json.Unmarshal`, and `filepath.Abs`) are passed in as explicit
environment parameters. The Go value `map[string]any` produced by decoding
is modelled as an association list of string keys to JSON-like values, and a
nil-able pointer receiver is modelled as `Option File`.
-/

set_option autoImplicit false

/-- A JSON-like value, the shallow model of what Go's `any` holds after
`json.Unmarshal` into `map[string]any`: null, booleans, numbers, strings,
arrays and nested string-keyed objects. -/
inductive Value where
  | null
  | bool (b : Bool)
  | num (n : Int)
  | str (s : String)
  | arr (elems : List Value)
  | obj (fields : List (String × Value))

/-- The nested string-keyed map `map[string]any`, as an association list. -/
abbrev KTree := List (String × Value)

/-- Raw file content (`[]byte`), as a list of byte values. -/
abbrev Bytes := List Nat

/-- The type of an unmarshal function `func([]byte, any) error` specialised
to decoding into `map[string]any`: it either produces the decoded tree or an
error message. -/
abbrev UnmarshalFn := Bytes → Except String KTree

/-- The type of the status hook `func(bool, error)`; the error argument is
modelled by its optional message. -/
abbrev StatusFn := Bool → Option String → Unit

/-- The `File` struct of `provider/file/file.go`: a path, an optional
unmarshal function and an optional status hook (nil-able Go function fields
become `Option`). The Go `options` struct is the same struct under another
name (`New` converts one to the other by a direct cast). -/
structure File where
  path : String
  unmarshal : Option UnmarshalFn
  onStatus : Option StatusFn

/-- The ambient OS and standard-library effects used by `File.Load`:
`os.ReadFile` (path to bytes or a read error) and the default decoder
`json.Unmarshal`. -/
structure LoadEnv where
  fs : String → Except String Bytes
  jsonUnmarshal : UnmarshalFn

/-- The errors `File.Load` can return. `nilFile` is the sentinel
`errNil = errors.New("nil File")`; the other two wrap an underlying cause
with `fmt.Errorf("read file: %w", err)` and
`fmt.Errorf("unmarshal: %w", err)`. -/
inductive LoadError where
  | nilFile
  | readFile (cause : String)
  | unmarshalErr (cause : String)
deriving DecidableEq, Repr

/-- The message of a `File.Load` error, as `Error()` would render it:
`%w` wrapping concatenates the context and the cause's message. -/
def LoadError.message : LoadError → String
  | .nilFile => "nil File"
  | .readFile e => "read file: " ++ e
  | .unmarshalErr e => "unmarshal: " ++ e

/-- The wrapped cause of a `File.Load` error, as `errors.Unwrap` would
expose it; the sentinel `nil File` error wraps nothing. -/
def LoadError.cause : LoadError → Option String
  | .nilFile => none
  | .readFile e => some e
  | .unmarshalErr e => some e

/-- `(*File).Load` from `provider/file/file.go`. The receiver is
`Option File` (a nil-able pointer) and is threaded through explicitly so
that (absence of) receiver mutation is visible: the Go body only reads
`f.path` and `f.unmarshal` and assigns the default decoder to a local
variable, never to the receiver. The Go result pair `(map[string]any, error)`
with exactly one side nil is the two branches of `Except`. -/
def File.Load (env : LoadEnv) : Option File → Except LoadError KTree × Option File
  | none => (Except.error LoadError.nilFile, none)
  | some f =>
    match env.fs f.path with
    | Except.error e => (Except.error (LoadError.readFile e), some f)
    | Except.ok bytes =>
      let unmarshal := f.unmarshal.getD env.jsonUnmarshal
      match unmarshal bytes with
      | Except.error e => (Except.error (LoadError.unmarshalErr e), some f)
      | Except.ok out => (Except.ok out, some f)

/-- The effect of `filepath.Abs`: canonical absolute form of a path, or a
failure (in Go, `Abs` fails only when the working directory cannot be
determined). -/
abbrev AbsFn := String → Except Unit String

/-- `(*File).String` from `provider/file/file.go`: on success of
`filepath.Abs` the result is `"file://" + path`; on failure the local
`path` is reassigned to `"file:///" + f.path` and the same final
concatenation applies. -/
def File.String (abs : AbsFn) (f : File) : String :=
  match abs f.path with
  | Except.ok path => "file://" ++ path
  | Except.error _ => "file://" ++ ("file:///" ++ f.path)

/-- Modelled from the spec: the file provider's `Option` type (its
`option.go` is not among the sources; only `New` in `file.go` applies
options). Per the spec the provider is configured with a byte-to-map
unmarshal function, and the `File` struct additionally carries an
`onStatus` hook, so an option sets one of these two fields of the
`options` struct. -/
inductive FOption where
  | withUnmarshal (u : UnmarshalFn)
  | withOnStatus (s : StatusFn)

/-- Application of one option to the `options` struct (which has the same
fields as `File`). -/
def applyOpt (o : File) : FOption → File
  | FOption.withUnmarshal u => { o with unmarshal := some u }
  | FOption.withOnStatus s => { o with onStatus := some s }

/-- `New` from `provider/file/file.go`: start from an `options` value
holding only the path (function fields zero, i.e. `none`), apply the
options in argument order, and cast the result to `File`. -/
def New (path : String) (opts : List FOption) : File :=
  opts.foldl applyOpt { path := path, unmarshal := none, onStatus := none }

/-- The unmarshal function the options list leaves in place: the last
`withUnmarshal` option wins, `none` when no option sets one. -/
def optsUnmarshal : List FOption → Option UnmarshalFn
  | [] => none
  | FOption.withUnmarshal u :: rest => some ((optsUnmarshal rest).getD u)
  | FOption.withOnStatus _ :: rest => optsUnmarshal rest

/-- The status hook the options list leaves in place: the last
`withOnStatus` option wins, `none` when no option sets one. -/
def optsOnStatus : List FOption → Option StatusFn
  | [] => none
  | FOption.withOnStatus s :: rest => some ((optsOnStatus rest).getD s)
  | FOption.withUnmarshal _ :: rest => optsOnStatus rest

/-!
The konf config core. Its source is not among the files under verification
(only its test suite is), so the core is modelled from the specification:
the merge engine (spec §4.2), `Config.Load` (spec §4.3) and the synchronous
entry of the watch coordinator (spec §4.4 steps 1–3). The exact log and
error message texts are taken from the test suite, which is part of the
sources.
-/

mutual
/-- Modelled from the spec: the merge engine (§4.2). If both sides are
sub-trees they are merged recursively; otherwise the incoming value
replaces the base value entirely (last write wins at that node). -/
def Value.merge : Value → Value → Value
  | Value.obj b, Value.obj i => Value.obj (mergeFields b i)
  | _, v => v
termination_by _b i => (sizeOf i, 0, 0)

/-- Fold every key of the incoming field list into the base field list,
in order. -/
def mergeFields (base : List (String × Value)) : List (String × Value) → List (String × Value)
  | [] => base
  | (k, v) :: rest => mergeFields (mergeKey base k v) rest
termination_by inc => (sizeOf inc, 1, 0)

/-- Merge one incoming key/value into the base field list. Keys compare
case-insensitively (spec §3); a hit merges the values at that key, a miss
appends the new binding. -/
def mergeKey : List (String × Value) → String → Value → List (String × Value)
  | [], k, v => [(k, v)]
  | (k0, v0) :: rest, k, v =>
    if k0.toLower = k.toLower then (k0, Value.merge v0 v) :: rest
    else (k0, v0) :: mergeKey rest k v
termination_by base _k v => (sizeOf v, 0, 1 + sizeOf base)
end

/-- Modelled from the spec: `Merge(base, incoming)` on whole trees. -/
def mergeKTree (base inc : KTree) : KTree := mergeFields base inc

/-- Modelled from the spec: a registered provider as the config core sees
it — its result for the `Load` capability, its display name, and whether it
exposes the watcher capability. -/
structure Provider where
  name : String
  load : Except String KTree
  watchable : Bool

/-- Modelled from the spec: the watch session state enum
{Idle, Running, Stopped} (§3). -/
inductive WatchState where
  | idle
  | running
  | stopped
deriving DecidableEq

/-- Modelled from the spec: the observable state of a Config store — the
merged tree, the provider registration list (§4.3), the watch session
state, the emitted log lines, and the names of the per-provider watch
tasks started so far. -/
structure ConfigState where
  tree : KTree
  providers : List Provider
  watchState : WatchState
  log : List String
  watchTasks : List String

/-- An error returned by the config core's `Load`. -/
inductive ConfError where
  | loadError (cause : String)

/-- Message of a config core error; the test suite shows the wrap context
is `"load configuration: "`. -/
def ConfError.message : ConfError → String
  | .loadError e => "load configuration: " ++ e

/-- Modelled from the spec: `Config.Load` (§4.3). For each provider in
order: call its `Load`; on error return the wrapped error at once
(fail-fast, later providers not attempted); on success merge the returned
tree into the store's tree and append the registration. The store state is
threaded explicitly, so the pair returned is (state after the call, error
if any). -/
def configLoad : ConfigState → List Provider → ConfigState × Option ConfError
  | c, [] => (c, none)
  | c, p :: ps =>
    match p.load with
    | Except.error e => (c, some (ConfError.loadError e))
    | Except.ok t =>
      configLoad { c with tree := mergeKTree c.tree t, providers := c.providers ++ [p] } ps

/-- The warning the test suite observes when `Watch` is called twice. -/
def watchTwiceWarn : String :=
  "Config has been watched, call Watch more than once has no effects."

/-- The panic message of `context.WithCancel(nil)`, observed by the test
suite. -/
def nilCtxPanicMsg : String := "cannot create context from nil parent"

/-- Outcome of the synchronous entry of `Config.Watch`: either a fatal
panic (not a recoverable error value), or a new store state together with
whether fresh per-provider watch tasks were started. -/
inductive WatchEntry where
  | panicked (msg : String)
  | returned (c : ConfigState) (startedTasks : Bool)

/-- Modelled from the spec: the synchronous entry of the watch coordinator
(§4.4 steps 1–3). A nil cancellation token (modelled as `none`) fails
fatally; a call while the session is already Running logs the fixed
warning and returns success without starting tasks; otherwise the state
moves to Running and one watch task per watch-capable registered provider
is started. -/
def configWatch (ctx : Option Unit) (c : ConfigState) : WatchEntry :=
  match ctx with
  | none => WatchEntry.panicked nilCtxPanicMsg
  | some _ =>
    if c.watchState = WatchState.running then
      WatchEntry.returned { c with log := c.log ++ [watchTwiceWarn] } false
    else
      WatchEntry.returned
        { c with
          watchState := WatchState.running,
          watchTasks := c.watchTasks ++ (c.providers.filter (·.watchable)).map (·.name) }
        true

/-!
Concrete sample inputs used by counterexamples and witnesses.
-/

/-- A file value with no options applied. -/
def f0 : File := { path := "cfg.json", unmarshal := none, onStatus := none }

/-- An `Abs` environment in which the absolute path cannot be computed. -/
def absFail : AbsFn := fun _ => Except.error ()

/-- An `Abs` environment that canonicalises by prefixing a directory. -/
def absDemo : AbsFn := fun p => Except.ok ("/abs/" ++ p)

/-- A sample decoder that succeeds with a one-entry tree. -/
def ju0 : UnmarshalFn := fun _ => Except.ok [("k", Value.str "v")]

/-- A sample decoder that always fails. -/
def juBad : UnmarshalFn := fun _ => Except.error "bad json"

/-- An environment where every read succeeds with empty content. -/
def envOk : LoadEnv := { fs := fun _ => Except.ok [], jsonUnmarshal := ju0 }

/-- An environment where every read fails. -/
def envRead : LoadEnv := { fs := fun _ => Except.error "boom", jsonUnmarshal := ju0 }

/-- An environment where reads succeed but decoding fails. -/
def envBad : LoadEnv := { fs := fun _ => Except.ok [], jsonUnmarshal := juBad }

/-- An environment that agrees with `envOk` at `f0.path` but differs at
another path. -/
def envAlt : LoadEnv :=
  { fs := fun p => if p = "other" then Except.error "x" else Except.ok [],
    jsonUnmarshal := ju0 }

/-!
Claims about the file provider.
-/

/-- C1 (counterexample): with an environment in which the absolute path
cannot be computed, `String` of the file with path `"cfg.json"` returns
`"file://file:///cfg.json"`, not the literal given path `"cfg.json"` as the
claim states: the fallback branch first reassigns the local to
`"file:///" + path` and then still prepends `"file://"`. -/
theorem file_string_fallback_cex :
    File.String absFail f0 = "file://file:///cfg.json" ∧
    File.String absFail f0 ≠ "cfg.json" := by
  exact ⟨rfl, by decide⟩

/-- C1 (amended): when the absolute path is computed, `String` returns
`"file://"` followed by it; when it cannot be computed, `String` returns
`"file://"` followed by `"file:///"` followed by the literal given path. -/
theorem file_string_spec (abs : AbsFn) (f : File) :
    (∀ q, abs f.path = Except.ok q → File.String abs f = "file://" ++ q) ∧
    (abs f.path = Except.error () → File.String abs f = "file://" ++ ("file:///" ++ f.path)) := by
  constructor
  · intro q h
    simp [File.String, h]
  · intro h
    simp [File.String, h]

/-- Witness for C1: both branches of `file_string_spec` evaluated at
concrete inputs. -/
theorem file_string_spec_witness :
    File.String absDemo f0 = "file://" ++ "/abs/cfg.json" ∧
    File.String absFail f0 = "file://" ++ ("file:///" ++ f0.path) :=
  ⟨(file_string_spec absDemo f0).1 "/abs/cfg.json" rfl,
   (file_string_spec absFail f0).2 rfl⟩

/-- C10: `String` is total and in both branches the result starts with the
scheme `"file://"`. -/
theorem file_string_total (abs : AbsFn) (f : File) :
    ∃ rest, File.String abs f = "file://" ++ rest := by
  cases h : abs f.path with
  | ok q => exact ⟨q, by simp [File.String, h]⟩
  | error u => exact ⟨"file:///" ++ f.path, by simp [File.String, h]⟩

/-- C8: `Load` on a nil receiver returns no tree and the sentinel error
`nil File`, for every environment — in particular no file is read. -/
theorem file_load_nil_receiver (env : LoadEnv) :
    File.Load env none = (Except.error LoadError.nilFile, none) ∧
    LoadError.nilFile.message = "nil File" :=
  ⟨rfl, rfl⟩

/-- Auxiliary: applying options never changes the path field. -/
theorem foldl_applyOpt_path (opts : List FOption) :
    ∀ o : File, (opts.foldl applyOpt o).path = o.path := by
  induction opts with
  | nil => intro o; rfl
  | cons a rest ih =>
    intro o
    cases a with
    | withUnmarshal u => simp [List.foldl_cons, applyOpt, ih]
    | withOnStatus s => simp [List.foldl_cons, applyOpt, ih]

/-- Auxiliary: the unmarshal field after applying options is the last one
set by an option, or the initial one. -/
theorem foldl_applyOpt_unmarshal (opts : List FOption) :
    ∀ o : File, (opts.foldl applyOpt o).unmarshal =
      (optsUnmarshal opts).elim o.unmarshal some := by
  induction opts with
  | nil => intro o; rfl
  | cons a rest ih =>
    intro o
    cases a with
    | withUnmarshal u =>
      cases h : optsUnmarshal rest with
      | none => simp [List.foldl_cons, applyOpt, optsUnmarshal, ih, h]
      | some u2 => simp [List.foldl_cons, applyOpt, optsUnmarshal, ih, h]
    | withOnStatus s =>
      simp [List.foldl_cons, applyOpt, optsUnmarshal, ih]

/-- Auxiliary: the status-hook field after applying options is the last
one set by an option, or the initial one. -/
theorem foldl_applyOpt_onStatus (opts : List FOption) :
    ∀ o : File, (opts.foldl applyOpt o).onStatus =
      (optsOnStatus opts).elim o.onStatus some := by
  induction opts with
  | nil => intro o; rfl
  | cons a rest ih =>
    intro o
    cases a with
    | withOnStatus s =>
      cases h : optsOnStatus rest with
      | none => simp [List.foldl_cons, applyOpt, optsOnStatus, ih, h]
      | some s2 => simp [List.foldl_cons, applyOpt, optsOnStatus, ih, h]
    | withUnmarshal u =>
      simp [List.foldl_cons, applyOpt, optsOnStatus, ih]

/-- C9: `New p opts` yields the file (a value, hence never nil) whose path
is `p` and whose unmarshal and status-hook fields are exactly those set by
the options in argument order — the last setter wins, and they stay `none`
when no option sets them. -/
theorem file_new_fields (p : String) (opts : List FOption) :
    (New p opts).path = p ∧
    (New p opts).unmarshal = optsUnmarshal opts ∧
    (New p opts).onStatus = optsOnStatus opts := by
  refine ⟨foldl_applyOpt_path opts _, ?_, ?_⟩
  · rw [New, foldl_applyOpt_unmarshal opts]
    cases optsUnmarshal opts <;> rfl
  · rw [New, foldl_applyOpt_onStatus opts]
    cases optsOnStatus opts <;> rfl

/-- C3: when no unmarshal function was set by an option, `Load` decodes
the read bytes with the default `json.Unmarshal`, and on success that
decoded map is exactly the tree returned. -/
theorem file_load_default_unmarshal (env : LoadEnv) (f : File) (b : Bytes) (t : KTree)
    (hu : f.unmarshal = none) (hfs : env.fs f.path = Except.ok b)
    (hj : env.jsonUnmarshal b = Except.ok t) :
    (File.Load env (some f)).1 = Except.ok t := by
  simp [File.Load, hfs, hu, hj]

/-- Witness for C3: the default decoder's output is returned verbatim. -/
theorem file_load_default_unmarshal_witness :
    (File.Load envOk (some f0)).1 = Except.ok [("k", Value.str "v")] :=
  file_load_default_unmarshal envOk f0 [] [("k", Value.str "v")] rfl rfl rfl

/-- C2: a failed read yields the error wrapping the read failure, a failed
decode yields the error wrapping the decode failure (in both cases no tree
is returned, and the cause is recoverable from the error), and `Load`
returns a tree exactly when both the read and the decode succeed. -/
theorem file_load_error_wrapping (env : LoadEnv) (f : File) :
    (∀ e, env.fs f.path = Except.error e →
      (File.Load env (some f)).1 = Except.error (LoadError.readFile e) ∧
      (LoadError.readFile e).message = "read file: " ++ e ∧
      (LoadError.readFile e).cause = some e) ∧
    (∀ b e, env.fs f.path = Except.ok b →
        (f.unmarshal.getD env.jsonUnmarshal) b = Except.error e →
      (File.Load env (some f)).1 = Except.error (LoadError.unmarshalErr e) ∧
      (LoadError.unmarshalErr e).message = "unmarshal: " ++ e ∧
      (LoadError.unmarshalErr e).cause = some e) ∧
    ((∃ t, (File.Load env (some f)).1 = Except.ok t) ↔
      (∃ b, env.fs f.path = Except.ok b ∧
        ∃ t, (f.unmarshal.getD env.jsonUnmarshal) b = Except.ok t)) := by
  refine ⟨?_, ?_, ?_⟩
  · intro e h
    exact ⟨by simp [File.Load, h], rfl, rfl⟩
  · intro b e hb hu
    exact ⟨by simp [File.Load, hb, hu], rfl, rfl⟩
  · constructor
    · rintro ⟨t, ht⟩
      cases hfs : env.fs f.path with
      | error e => simp [File.Load, hfs] at ht
      | ok b =>
        cases hu : (f.unmarshal.getD env.jsonUnmarshal) b with
        | error e => simp [File.Load, hfs, hu] at ht
        | ok t2 => exact ⟨b, rfl, t2, hu⟩
    · rintro ⟨b, hb, t, ht⟩
      exact ⟨t, by simp [File.Load, hb, ht]⟩

/-- Witness for C2: the read-failure and decode-failure branches evaluated
at concrete inputs. -/
theorem file_load_error_wrapping_witness :
    ((File.Load envRead (some f0)).1 = Except.error (LoadError.readFile "boom") ∧
      (LoadError.readFile "boom").message = "read file: boom" ∧
      (LoadError.readFile "boom").cause = some "boom") ∧
    ((File.Load envBad (some f0)).1 = Except.error (LoadError.unmarshalErr "bad json") ∧
      (LoadError.unmarshalErr "bad json").message = "unmarshal: bad json" ∧
      (LoadError.unmarshalErr "bad json").cause = some "bad json") :=
  ⟨(file_load_error_wrapping envRead f0).1 "boom" rfl,
   (file_load_error_wrapping envBad f0).2.1 [] "bad json" rfl rfl⟩

/-- C4: `Load` returns its receiver unchanged (no field of the `File` is
mutated), and its result depends only on the bytes observed at the file's
path and on the decoders, so two calls observing the same bytes agree on
tree and error outcome. -/
theorem file_load_no_mutation (env1 env2 : LoadEnv) (f : File) :
    (File.Load env1 (some f)).2 = some f ∧
    (env1.fs f.path = env2.fs f.path → env1.jsonUnmarshal = env2.jsonUnmarshal →
      (File.Load env1 (some f)).1 = (File.Load env2 (some f)).1) := by
  constructor
  · cases hfs : env1.fs f.path with
    | error e => simp [File.Load, hfs]
    | ok b =>
      cases hu : (f.unmarshal.getD env1.jsonUnmarshal) b with
      | error e => simp [File.Load, hfs, hu]
      | ok t => simp [File.Load, hfs, hu]
  · intro hfs hj
    simp only [File.Load, hfs, hj]

/-- Witness for C4: two environments that agree on the observed bytes at
the file's path produce the same outcome, and the receiver survives. -/
theorem file_load_no_mutation_witness :
    (File.Load envOk (some f0)).2 = some f0 ∧
    (File.Load envOk (some f0)).1 = (File.Load envAlt (some f0)).1 :=
  ⟨(file_load_no_mutation envOk envAlt f0).1,
   (file_load_no_mutation envOk envAlt f0).2 rfl rfl⟩

/-!
Claims about the config core (spec-modelled).
-/

/-- A provider whose load succeeds with a one-entry tree. -/
def pGood : Provider :=
  { name := "good", load := Except.ok [("a", Value.str "1")], watchable := false }

/-- A provider whose load fails, as `errorLoader` in the test suite. -/
def pBad : Provider :=
  { name := "bad", load := Except.error "load error", watchable := false }

/-- A fresh, never-loaded config store. -/
def c0 : ConfigState :=
  { tree := [], providers := [], watchState := WatchState.idle, log := [], watchTasks := [] }

/-- A store whose watch session is already running, with one started task. -/
def cRun : ConfigState :=
  { tree := [], providers := [pGood], watchState := WatchState.running,
    log := [], watchTasks := ["w"] }

/-- C5 (counterexample): when a successful provider precedes the failing
one in the same `Load` call, the call still fails with the wrapped error,
but the store's tree is NOT left unchanged — the earlier provider's tree
has already been merged, so "no tree mutation occurs" fails as a universal
statement. -/
theorem config_load_mutation_cex :
    (configLoad c0 [pGood, pBad]).2 = some (ConfError.loadError "load error") ∧
    (configLoad c0 [pGood, pBad]).1.tree ≠ c0.tree := by
  constructor
  · rfl
  · simp [configLoad, pGood, pBad, c0, mergeKTree, mergeFields, mergeKey]

/-- C5 (amended): when a provider's load fails, the enclosing `Load` fails
with the error wrapped as `"load configuration: "` plus the cause, the
failing provider itself causes no tree mutation and later providers in the
same call are not attempted — the state returned is exactly the state
after the (successful) providers that preceded it, so the tree is
unchanged from before the call exactly when the failing provider comes
first. -/
theorem config_load_failfast (c : ConfigState) (pre : List Provider) (p : Provider)
    (ps : List Provider) (e : String)
    (hpre : ∀ q ∈ pre, ∃ t, q.load = Except.ok t) (hp : p.load = Except.error e) :
    configLoad c (pre ++ p :: ps) = ((configLoad c pre).1, some (ConfError.loadError e)) ∧
    (ConfError.loadError e).message = "load configuration: " ++ e := by
  refine ⟨?_, rfl⟩
  induction pre generalizing c with
  | nil => simp [configLoad, hp]
  | cons q rest ih =>
    obtain ⟨t, ht⟩ := hpre q (List.mem_cons_self q rest)
    have hrest : ∀ r ∈ rest, ∃ t2, r.load = Except.ok t2 :=
      fun r hr => hpre r (List.mem_cons_of_mem q hr)
    simpa [configLoad, ht] using ih _ hrest

/-- Witness for C5: a successful provider followed by the failing one —
the call fails with the wrapped message, the failing provider and the
later provider contribute nothing. -/
theorem config_load_failfast_witness :
    configLoad c0 ([pGood] ++ pBad :: [pGood]) =
      ((configLoad c0 [pGood]).1, some (ConfError.loadError "load error")) ∧
    (ConfError.loadError "load error").message = "load configuration: load error" :=
  config_load_failfast c0 [pGood] pBad [pGood] "load error"
    (by
      intro q hq
      rw [List.mem_singleton] at hq
      subst hq
      exact ⟨[("a", Value.str "1")], rfl⟩)
    rfl

/-- C6: a `Watch` call while the session is already running returns
success immediately without a panic, starts no watch task (the task list
is exactly the old one), leaves tree, registrations and session state
alone, and appends exactly one fixed "has no effects" warning to the log. -/
theorem config_watch_twice_noop (c : ConfigState) (h : c.watchState = WatchState.running) :
    ∃ c2, configWatch (some ()) c = WatchEntry.returned c2 false ∧
      c2.watchTasks = c.watchTasks ∧
      c2.log = c.log ++ [watchTwiceWarn] ∧
      watchTwiceWarn = "Config has been watched, call Watch more than once has no effects." ∧
      c2.tree = c.tree ∧ c2.providers = c.providers ∧ c2.watchState = c.watchState := by
  refine ⟨{ c with log := c.log ++ [watchTwiceWarn] }, ?_, rfl, rfl, rfl, rfl, rfl, h.symm ▸ rfl⟩
  simp [configWatch, h]

/-- Witness for C6: the second `Watch` call on a store already running. -/
theorem config_watch_twice_noop_witness :
    ∃ c2, configWatch (some ()) cRun = WatchEntry.returned c2 false ∧
      c2.watchTasks = cRun.watchTasks ∧
      c2.log = cRun.log ++ [watchTwiceWarn] ∧
      watchTwiceWarn = "Config has been watched, call Watch more than once has no effects." ∧
      c2.tree = cRun.tree ∧ c2.providers = cRun.providers ∧ c2.watchState = cRun.watchState :=
  config_watch_twice_noop cRun rfl

/-- C7: `Watch` with a nil cancellation token fails fatally — the outcome
is the `panicked` constructor carrying exactly the message
"cannot create context from nil parent", never a `returned` value. -/
theorem config_watch_nil_ctx (c : ConfigState) :
    configWatch none c = WatchEntry.panicked nilCtxPanicMsg ∧
    nilCtxPanicMsg = "cannot create context from nil parent" ∧
    ∀ c2 b, configWatch none c ≠ WatchEntry.returned c2 b :=
  ⟨rfl, rfl, fun _ _ h => WatchEntry.noConfusion h⟩
